import Mathlib

/-!
Verification of the MPTCP core of this kernel tree against its design
specification.  The definitions below are a shallow embedding of the C
functions in net/ipv4/mptcp.c, net/ipv4/mptcp_pm.c and the headers
include/net/mptcp.h, include/net/mptcp_pm.h, include/linux/tcp_options.h.
Machine integers are modelled as Nat reduced modulo 2^32 where the C code
computes on u32; the kernel's wrap-around sequence comparisons before()/
after() ((s32)(a-b) < 0) are embedded explicitly.
-/

/-- 2^32, the modulus of the kernel's u32 arithmetic. -/
def U32 : Nat := 4294967296

/-- Reduce a value into u32 range, as C unsigned arithmetic does. -/
def u32 (x : Nat) : Nat := x % U32

/-- u32 subtraction a - b with wrap-around (two's complement). -/
def sub32 (a b : Nat) : Nat := (a % U32 + (U32 - b % U32)) % U32

/-- The kernel's before(seq1, seq2) from include/net/tcp.h:
`(s32)(seq1 - seq2) < 0`, i.e. the wrapped difference has the sign bit set. -/
def seq_before (a b : Nat) : Bool := decide (2147483648 ≤ sub32 a b)

/-- after(seq2, seq1) is defined as before(seq1, seq2). -/
def seq_after (a b : Nat) : Bool := seq_before b a

/-- Return values of mptcp_queue_skb (include/net/mptcp.h). -/
def MPTCP_EATEN : Nat := 1

def MPTCP_QUEUED : Nat := 2

/-- TCP states, include/net/tcp_states.h (fixed kernel ABI numbering,
named by the spec: ESTABLISHED, CLOSE_WAIT, SYN_SENT, SYN_RECV). -/
def TCP_ESTABLISHED : Nat := 1

def TCP_SYN_SENT : Nat := 2

def TCP_SYN_RECV : Nat := 3

def TCP_CLOSE_WAIT : Nat := 8

def TCPF_ESTABLISHED : Nat := 1 <<< TCP_ESTABLISHED

def TCPF_CLOSE_WAIT : Nat := 1 <<< TCP_CLOSE_WAIT

def TCPF_SYN_SENT : Nat := 1 <<< TCP_SYN_SENT

def TCPF_SYN_RECV : Nat := 1 <<< TCP_SYN_RECV

/-- Congestion-avoidance state TCP_CA_Loss (include/net/tcp.h enum). -/
def TCP_CA_Loss : Nat := 4

/-- TCPHDR_FIN flag bit (include/net/tcp.h). -/
def TCPHDR_FIN : Nat := 1

/-- MPTCPHDR_ACK bit or-ed into tcp_skb_cb.mptcp_flags by the option
parser.  Its numeric value is defined in this tree's linux/tcp.h, which is
not among the provided sources; no claim depends on the value, only on the
field being modified, so an arbitrary nonzero bit is used. -/
def MPTCPHDR_ACK : Nat := 1

/-- PI_TO_FLAG from include/net/mptcp.h: `1 << (pi - 1)`.  Path indices
are 1-based; Nat subtraction truncates at 0 exactly where the C macro
would shift by -1 (undefined; never reached for valid indices). -/
def PI_TO_FLAG (pi : Nat) : Nat := 1 <<< (pi - 1)

/-- The control-block fields of struct tcp_skb_cb used by the MPTCP layer
(linux/tcp.h in this tree): subflow sequence numbers, DSN fields, the DSS
mapping carried by the segment, the data-ack, and bookkeeping bits. -/
structure Tcb where
  seq : Nat
  end_seq : Nat
  sub_seq : Nat
  data_seq : Nat
  end_data_seq : Nat
  data_len : Nat
  data_ack : Nat
  dss_off : Nat
  mptcp_flags : Nat
  path_mask : Nat
  flags : Nat
  sacked : Nat
  deriving DecidableEq

/-- A segment (struct sk_buff) as seen by the MPTCP receive path:
its control block, its payload length, the subflow-FIN bit of its TCP
header, the outcome of mptcp_check_dfin's re-scan of the raw TCP options
for a DSS F-bit (the raw option bytes themselves are not modelled), the
outcome of folding the DSS checksum over payload plus DSS fields
(likewise abstracted from the raw bytes), and its truesize. -/
structure Skb where
  cb : Tcb
  len : Nat
  fin : Bool
  dfin_opt : Bool
  csum_bad : Bool
  truesize : Nat
  deriving DecidableEq

/-- Subflow (struct tcp_sock) state read and written by the receive path:
the mpc capability flag, the subflow-level copied_seq, rx_opt.saw_dfin,
the active DSS mapping, the checksum-error latch and the subflow receive
queue used by the not-mpc branch of mptcp_queue_skb. -/
structure Tp where
  mpc : Bool
  copied_seq : Nat
  saw_dfin : Bool
  map_data_seq : Nat
  map_data_len : Nat
  map_subseq : Nat
  csum_error : Bool
  rcv_queue : List Skb
  deriving DecidableEq

/-- The MCB-level receive-side accumulator (struct multipath_options
fields used by the receive and path-manager paths), including the stored
remote IPv4/IPv6 address arrays of the path manager. -/
structure Loc4 where
  id : Nat
  addr : Nat
  port : Nat
  deriving DecidableEq

structure Loc6 where
  id : Nat
  addr : Nat
  port : Nat
  deriving DecidableEq

structure Mopt where
  dfin_rcvd : Bool
  fin_dsn : Nat
  list_rcvd : Bool
  dss_csum : Bool
  num_addr4 : Nat
  addr4 : List Loc4
  num_addr6 : Nat
  addr6 : List Loc6
  deriving DecidableEq

/-- Meta-socket state of the MCB: meta rcv_nxt and copied_seq in DSN
space, the meta receive queue, the meta out-of-order queue, the meta
TCP state and the shutdown/done flags written by mptcp_fin. -/
structure MetaSock where
  rcv_nxt : Nat
  copied_seq : Nat
  rcv_queue : List Skb
  ofo_queue : List Skb
  sk_state : Nat
  rcv_shutdown : Bool
  sock_done : Bool
  deriving DecidableEq

/-- Combined state threaded through mptcp_queue_skb: the receiving
subflow, the meta socket and the MCB receive options. -/
structure QState where
  tp : Tp
  meta : MetaSock
  mo : Mopt
  deriving DecidableEq

/-- is_dfin_seg from include/net/mtcp.h: the segment ends exactly at the
recorded DFIN sequence number. -/
def is_dfin_seg (mo : Mopt) (skb : Skb) : Bool :=
  mo.dfin_rcvd && (mo.fin_dsn == skb.cb.end_data_seq)

/-- mptcp_fin (net/ipv4/mptcp.c line 244): on a DFIN-carrying segment,
mark the meta socket shut down for reading and move ESTABLISHED to
CLOSE_WAIT. -/
def mptcp_fin (skb : Skb) (mo : Mopt) (meta : MetaSock) : MetaSock :=
  if is_dfin_seg mo skb then
    let meta := { meta with rcv_shutdown := true, sock_done := true }
    if meta.sk_state == TCP_ESTABLISHED then
      { meta with sk_state := TCP_CLOSE_WAIT }
    else meta
  else meta

/-- mptcp_get_dataseq_mapping (net/ipv4/mptcp.c line 1590).  If the
segment carries its own DSS mapping (data_len nonzero) the subflow
mapping is replaced first.  A pure subflow FIN without DFIN is left
alone (returns not-in-meta-order).  A segment whose subflow interval
falls outside the active mapping is a fault (the C code prints and
BUG()s before its `return -1`; both are modelled as `none`).  Otherwise
the DSN fields are derived from the mapping, a confirmed DFIN adds one
to end_data_seq, data_len is cleared, and the segment is in meta-order
iff it contains the meta-level copied_seq. -/
def mptcp_get_dataseq_mapping (tp : Tp) (mo : Mopt) (meta : MetaSock)
    (skb : Skb) : Option (Tp × Skb × Bool) :=
  let tp := if skb.cb.data_len != 0 then
      { tp with map_data_seq := skb.cb.data_seq,
                map_data_len := skb.cb.data_len,
                map_subseq := skb.cb.sub_seq }
    else tp
  if skb.fin && !tp.saw_dfin && skb.len == 0 then
    some (tp, skb, false)
  else if seq_before skb.cb.seq tp.map_subseq ||
      seq_after skb.cb.end_seq
        (u32 (tp.map_subseq + tp.map_data_len + (if skb.fin then 1 else 0))) then
    none
  else
    let ds := u32 (tp.map_data_seq + sub32 skb.cb.seq tp.map_subseq)
    let eds0 := u32 (ds + skb.len)
    let eds := if mo.dfin_rcvd && (u32 (eds0 + 1) == mo.fin_dsn) && skb.dfin_opt
      then u32 (eds0 + 1) else eds0
    let skb := { skb with cb :=
      { skb.cb with data_seq := ds, end_data_seq := eds, data_len := 0 } }
    let inorder := !seq_before meta.copied_seq skb.cb.data_seq &&
      seq_before meta.copied_seq skb.cb.end_data_seq
    some (tp, skb, inorder)

/-- mptcp_ofo_queue (net/ipv4/mptcp.c line 866): walk the meta ofo queue
from its head; stop at the first segment wholly after rcv_nxt; a head
already entirely at or below rcv_nxt is a BUG ("should not happen",
modelled as `none`); otherwise move the head to the meta receive queue,
advance rcv_nxt to its end_data_seq, and run mptcp_fin on a FIN head. -/
def ofo_drain (mo : Mopt) : List Skb → MetaSock → Option MetaSock
  | [], meta => some { meta with ofo_queue := [] }
  | skb :: rest, meta =>
    if seq_after skb.cb.data_seq meta.rcv_nxt then
      some { meta with ofo_queue := skb :: rest }
    else if !seq_after skb.cb.end_data_seq meta.rcv_nxt then
      none
    else
      let meta := { meta with rcv_queue := meta.rcv_queue ++ [skb],
                              rcv_nxt := skb.cb.end_data_seq }
      let meta := if skb.fin then mptcp_fin skb mo meta else meta
      ofo_drain mo rest meta

def mptcp_ofo_queue (mo : Mopt) (meta : MetaSock) : Option MetaSock :=
  ofo_drain mo meta.ofo_queue meta

/-- Trailing clean-up of the ofo insertion (net/ipv4/mptcp.c lines
1242-1250): segments following the inserted one are unlinked while they
start before its end and end no later than it. -/
def ofo_clean (skb : Skb) (l : List Skb) : List Skb :=
  l.dropWhile (fun x => seq_after skb.cb.end_data_seq x.cb.data_seq &&
    !seq_before skb.cb.end_data_seq x.cb.end_data_seq)

inductive OfoRes where
  | eaten : OfoRes
  | queued : List Skb → OfoRes
  deriving DecidableEq

/-- Insertion of an out-of-order segment into the DSN-ordered meta ofo
queue (net/ipv4/mptcp.c lines 1185-1253).  The list is walked from the
tail to find the last segment starting no later than the new one; if
that segment overlaps the new one, full coverage drops the new segment
(EATEN) and an equal start is a BUG (`none`); otherwise the new segment
is inserted after it and fully covered successors are unlinked. -/
def ofo_insert (skb : Skb) (l : List Skb) : Option OfoRes :=
  if l.isEmpty then some (OfoRes.queued [skb]) else
  let spanned := l.reverse.span (fun x => seq_after x.cb.data_seq skb.cb.data_seq)
  match spanned.2 with
  | [] => some (OfoRes.queued (skb :: ofo_clean skb spanned.1.reverse))
  | skb1 :: l1rev =>
    if seq_before skb.cb.data_seq skb1.cb.end_data_seq then
      if !seq_after skb.cb.end_data_seq skb1.cb.end_data_seq then
        some OfoRes.eaten
      else if !seq_after skb.cb.data_seq skb1.cb.data_seq then
        none
      else
        some (OfoRes.queued
          (l1rev.reverse ++ skb1 :: skb :: ofo_clean skb spanned.1.reverse))
    else
      some (OfoRes.queued
        (l1rev.reverse ++ skb1 :: skb :: ofo_clean skb spanned.1.reverse))

/-- The mapping-verification step of mptcp_queue_skb (lines 1132-1134):
only a segment still carrying its own DSS mapping is passed through
mptcp_get_dataseq_mapping (whose in-meta-order result is ignored there). -/
def queue_map_step (tp : Tp) (mo : Mopt) (meta : MetaSock) (skb : Skb) :
    Option (Tp × Skb) :=
  if skb.cb.data_len != 0 then
    (mptcp_get_dataseq_mapping tp mo meta skb).map (fun r => (r.1, r.2.1))
  else some (tp, skb)

/-- Lines 1126-1134 of mptcp_queue_skb: advance the subflow copied_seq
past the segment (plus one for a subflow FIN) and verify the mapping. -/
def queue_entry_step (s : QState) (skb : Skb) : Option (Tp × Skb) :=
  queue_map_step
    { s.tp with copied_seq := u32 (skb.cb.end_seq + (if skb.fin then 1 else 0)) }
    s.mo s.meta skb

/-- Lines 1254-1267 of mptcp_queue_skb (the in-meta-order branch):
append the segment to the meta receive queue, advance rcv_nxt to its
end_data_seq, handle a subflow FIN, and drain the ofo queue when it is
not empty. -/
def queue_inorder_tail (mo : Mopt) (meta2 : MetaSock) : Option MetaSock :=
  if meta2.ofo_queue.isEmpty then some meta2 else mptcp_ofo_queue mo meta2

def queue_inorder (mo : Mopt) (meta : MetaSock) (skb : Skb) : Option MetaSock :=
  let meta1 := { meta with rcv_queue := meta.rcv_queue ++ [skb],
                           rcv_nxt := skb.cb.end_data_seq }
  queue_inorder_tail mo (if skb.fin then mptcp_fin skb mo meta1 else meta1)

/-- mptcp_queue_skb (net/ipv4/mptcp.c line 1092).  Not-mpc subflows keep
the segment in their own receive queue.  A pure subflow FIN without DFIN
only advances the subflow copied_seq (EATEN).  Otherwise the subflow
copied_seq is advanced past the segment, a carried mapping is verified,
a segment ending at or before the meta rcv_nxt is a duplicate (EATEN,
meta state untouched), a failed DSS checksum latches tp.csum_error (and
resets the subflow, outside this state), a segment starting after
rcv_nxt goes to the ofo queue, and an in-order segment is appended to
the meta receive queue, advances rcv_nxt, handles a FIN and drains the
ofo queue.  `none` models the BUG() paths. -/
def mptcp_queue_skb (s : QState) (skb : Skb) : Option (QState × Nat) :=
  if !s.tp.mpc then
    some ({ s with tp := { s.tp with rcv_queue := s.tp.rcv_queue ++ [skb] } },
      MPTCP_QUEUED)
  else if skb.len == 0 && skb.fin && !s.tp.saw_dfin then
    some ({ s with tp := { s.tp with copied_seq := u32 (s.tp.copied_seq + 1) } },
      MPTCP_EATEN)
  else
    (queue_entry_step s skb).bind (fun r =>
      let tp2 := r.1
      let skb := r.2
      if !seq_before s.meta.rcv_nxt skb.cb.end_data_seq then
        some ({ s with tp := tp2 }, MPTCP_EATEN)
      else
        let tp3 := if skb.cb.dss_off != 0 && skb.csum_bad then
            { tp2 with csum_error := true } else tp2
        if seq_before s.meta.rcv_nxt skb.cb.data_seq then
          (ofo_insert skb s.meta.ofo_queue).map (fun res =>
            match res with
            | OfoRes.eaten => ({ s with tp := tp3 }, MPTCP_EATEN)
            | OfoRes.queued newofo =>
              ({ s with
                 tp := tp3,
                 meta := { s.meta with ofo_queue := newofo } }, MPTCP_QUEUED))
        else
          (queue_inorder s.mo s.meta skb).map (fun m =>
            ({ s with tp := tp3, meta := m }, MPTCP_QUEUED)))

/-! Concrete fixtures used by witnesses and counterexamples. -/

def tcb_zero : Tcb := ⟨0, 0, 0, 0, 0, 0, 0, 0, 0, 0, 0, 0⟩

def mo_triv : Mopt :=
  { dfin_rcvd := false, fin_dsn := 0, list_rcvd := false, dss_csum := false,
    num_addr4 := 0, addr4 := [], num_addr6 := 0, addr6 := [] }

def tp_mpc : Tp :=
  { mpc := true, copied_seq := 0, saw_dfin := false, map_data_seq := 0,
    map_data_len := 0, map_subseq := 0, csum_error := false, rcv_queue := [] }

def meta_rn10 : MetaSock :=
  { rcv_nxt := 10, copied_seq := 0, rcv_queue := [], ofo_queue := [],
    sk_state := TCP_ESTABLISHED, rcv_shutdown := false, sock_done := false }

def qs10 : QState := ⟨tp_mpc, meta_rn10, mo_triv⟩

def skb_5_10 : Skb :=
  { cb := { tcb_zero with data_seq := 5, end_data_seq := 10 }, len := 5,
    fin := false, dfin_opt := false, csum_bad := false, truesize := 100 }

def skb_5_15 : Skb :=
  { cb := { tcb_zero with data_seq := 5, end_data_seq := 15 }, len := 10,
    fin := false, dfin_opt := false, csum_bad := false, truesize := 100 }

/-- C1.  On an MPTCP-capable subflow, a segment that is not a pure
subflow FIN and whose (mapping-derived) end_data_seq is at or before the
meta rcv_nxt is dropped as a duplicate: mptcp_queue_skb returns
MPTCP_EATEN and the resulting state differs from the input state only in
the subflow record, so the meta receive queue, the meta ofo queue and
rcv_nxt are all unchanged and no DSN byte is delivered twice. -/
theorem claim1_duplicate_segment_eaten (s : QState) (skb : Skb) (tp2 : Tp)
    (skb2 : Skb)
    (hmpc : s.tp.mpc = true)
    (hnp : (skb.len == 0 && skb.fin && !s.tp.saw_dfin) = false)
    (hmap : queue_entry_step s skb = some (tp2, skb2))
    (hdup : seq_before s.meta.rcv_nxt skb2.cb.end_data_seq = false) :
    mptcp_queue_skb s skb = some ({ s with tp := tp2 }, MPTCP_EATEN) ∧
    ({ s with tp := tp2 } : QState).meta = s.meta := by
  constructor
  · unfold mptcp_queue_skb
    simp [hmpc, hnp, hmap, hdup]
  · rfl

/-- Witness for C1 at a concrete duplicate segment (DSN range [5,10),
meta rcv_nxt already 10). -/
theorem claim1_duplicate_segment_eaten_witness :
    qs10.tp.mpc = true ∧
    mptcp_queue_skb qs10 skb_5_10 = some ({ qs10 with tp := tp_mpc }, MPTCP_EATEN) := by
  refine ⟨by decide, ?_⟩
  exact (claim1_duplicate_segment_eaten qs10 skb_5_10 tp_mpc skb_5_10
    (by decide) (by decide) (by decide) (by decide)).1

/-- mptcp_fin only touches the shutdown/done flags and the meta TCP
state; the queues and rcv_nxt are untouched. -/
theorem mptcp_fin_frame (skb : Skb) (mo : Mopt) (m : MetaSock) :
    (mptcp_fin skb mo m).rcv_queue = m.rcv_queue ∧
    (mptcp_fin skb mo m).ofo_queue = m.ofo_queue ∧
    (mptcp_fin skb mo m).rcv_nxt = m.rcv_nxt := by
  unfold mptcp_fin
  by_cases h1 : is_dfin_seg mo skb = true
  · by_cases h2 : (m.sk_state == TCP_ESTABLISHED) = true <;> simp [h1, h2]
  · simp [h1]

/-- Structure of a successful ofo drain: some prefix of the ofo queue is
moved, in order, to the tail of the receive queue; the remainder stays in
the ofo queue; rcv_nxt ends at the end_data_seq of the last drained
segment (or stays put when none is drained). -/
theorem ofo_drain_spec (mo : Mopt) (l : List Skb) :
    ∀ (meta m' : MetaSock), ofo_drain mo l meta = some m' →
    ∃ k, m'.rcv_queue = meta.rcv_queue ++ l.take k ∧
      m'.ofo_queue = l.drop k ∧
      m'.rcv_nxt = (l.take k).foldl (fun _ x => x.cb.end_data_seq) meta.rcv_nxt := by
  induction l with
  | nil =>
    intro meta m' h
    simp only [ofo_drain, Option.some.injEq] at h
    exact ⟨0, by simp [← h]⟩
  | cons skb rest ih =>
    intro meta m' h
    rw [ofo_drain] at h
    split at h
    · exact ⟨0, by simp [← Option.some.inj h]⟩
    · split at h
      · exact absurd h (by simp)
      · obtain ⟨k, hq, ho, hn⟩ := ih _ m' h
        refine ⟨k + 1, ?_, ?_, ?_⟩
        · rw [hq]
          by_cases hf : skb.fin = true <;>
            simp [hf, (mptcp_fin_frame skb mo _).1, List.take_succ_cons]
        · rw [ho]
          simp [List.drop_succ_cons]
        · rw [hn]
          by_cases hf : skb.fin = true <;>
            simp [hf, (mptcp_fin_frame skb mo _).2.2, List.take_succ_cons]

/-- Structure of queue_inorder_tail: a prefix of the ofo queue of the
reached state moves to its receive queue and rcv_nxt follows. -/
theorem queue_inorder_tail_spec (mo : Mopt) (M2 m' : MetaSock)
    (h : queue_inorder_tail mo M2 = some m') :
    ∃ k, m'.rcv_queue = M2.rcv_queue ++ M2.ofo_queue.take k ∧
      m'.ofo_queue = M2.ofo_queue.drop k ∧
      m'.rcv_nxt = (M2.ofo_queue.take k).foldl (fun _ x => x.cb.end_data_seq)
        M2.rcv_nxt := by
  unfold queue_inorder_tail at h
  split at h
  · exact ⟨0, by simp [← Option.some.inj h]⟩
  · unfold mptcp_ofo_queue at h
    exact ofo_drain_spec mo M2.ofo_queue M2 m' h

/-- Structure of the in-order branch: the segment lands at the tail of
the meta receive queue, followed by a drained prefix of the ofo queue;
rcv_nxt ends at the last queued segment's end_data_seq. -/
theorem queue_inorder_spec (mo : Mopt) (meta : MetaSock) (skb : Skb)
    (m' : MetaSock) (h : queue_inorder mo meta skb = some m') :
    ∃ k, m'.rcv_queue = meta.rcv_queue ++ skb :: meta.ofo_queue.take k ∧
      m'.ofo_queue = meta.ofo_queue.drop k ∧
      m'.rcv_nxt = (meta.ofo_queue.take k).foldl (fun _ x => x.cb.end_data_seq)
        skb.cb.end_data_seq := by
  simp only [queue_inorder] at h
  by_cases hf : skb.fin = true
  · rw [if_pos hf] at h
    obtain ⟨k, hq, ho, hn⟩ := queue_inorder_tail_spec mo _ m' h
    obtain ⟨f1, f2, f3⟩ := mptcp_fin_frame skb mo
      { meta with rcv_queue := meta.rcv_queue ++ [skb],
                  rcv_nxt := skb.cb.end_data_seq }
    simp only [f1, f2, f3] at hq ho hn
    exact ⟨k, by simpa using hq, by simpa using ho, by simpa using hn⟩
  · rw [if_neg hf] at h
    obtain ⟨k, hq, ho, hn⟩ := queue_inorder_tail_spec mo _ m' h
    exact ⟨k, by simpa using hq, by simpa using ho, by simpa using hn⟩

/-- Counterexample to C2 as stated.  With meta rcv_nxt = 10 and a
segment with DSN range [5,10): the claimed precondition
data_seq < rcv_nxt ≤ end_data_seq holds (5 < 10 ≤ 10), yet
mptcp_queue_skb drops it as a duplicate (MPTCP_EATEN), does not append
it to the meta receive queue and does not advance rcv_nxt, because the
code's duplicate test fires first whenever end_data_seq ≤ rcv_nxt. -/
theorem claim2_counterexample :
    seq_before skb_5_10.cb.data_seq qs10.meta.rcv_nxt = true ∧
    seq_before skb_5_10.cb.end_data_seq qs10.meta.rcv_nxt = false ∧
    mptcp_queue_skb qs10 skb_5_10 = some ({ qs10 with tp := tp_mpc }, MPTCP_EATEN) ∧
    MPTCP_EATEN ≠ MPTCP_QUEUED := by decide

/-- C2 amended: for a segment with data_seq < rcv_nxt (within half the
sequence space, i.e. also not after rcv_nxt) and rcv_nxt strictly
before end_data_seq, mptcp_queue_skb appends the segment to the meta
receive queue, advances rcv_nxt to its end_data_seq, drains a prefix of
now-contiguous ofo segments (rcv_nxt ending at the last drained
segment's end_data_seq) and returns MPTCP_QUEUED. -/
theorem claim2_inorder_segment_queued (s : QState) (skb : Skb) (tp2 : Tp)
    (skb2 : Skb) (q : QState) (ans : Nat)
    (hmpc : s.tp.mpc = true)
    (hnp : (skb.len == 0 && skb.fin && !s.tp.saw_dfin) = false)
    (hmap : queue_entry_step s skb = some (tp2, skb2))
    (hlt : seq_before skb2.cb.data_seq s.meta.rcv_nxt = true)
    (hge : seq_before s.meta.rcv_nxt skb2.cb.data_seq = false)
    (hhi : seq_before s.meta.rcv_nxt skb2.cb.end_data_seq = true)
    (hres : mptcp_queue_skb s skb = some (q, ans)) :
    ans = MPTCP_QUEUED ∧
    ∃ k, q.meta.rcv_queue = s.meta.rcv_queue ++ skb2 :: s.meta.ofo_queue.take k ∧
      q.meta.ofo_queue = s.meta.ofo_queue.drop k ∧
      q.meta.rcv_nxt = (s.meta.ofo_queue.take k).foldl
        (fun _ x => x.cb.end_data_seq) skb2.cb.end_data_seq := by
  unfold mptcp_queue_skb at hres
  simp [hmpc, hnp, hmap, hhi, hge, Option.map_eq_some'] at hres
  obtain ⟨m, hm, hq', hans⟩ := hres
  obtain ⟨k, h1, h2, h3⟩ := queue_inorder_spec s.mo s.meta skb2 m hm
  refine ⟨hans.symm, k, ?_, ?_, ?_⟩ <;> rw [← hq'] <;> assumption

def c2q : QState :=
  { qs10 with meta := { meta_rn10 with rcv_queue := [skb_5_15], rcv_nxt := 15 } }

/-- Witness for amended C2 at a concrete in-order segment (DSN [5,15),
rcv_nxt 10): queued, appended, rcv_nxt advanced to 15. -/
theorem claim2_inorder_segment_queued_witness :
    mptcp_queue_skb qs10 skb_5_15 = some (c2q, MPTCP_QUEUED) ∧
    (MPTCP_QUEUED = MPTCP_QUEUED ∧
      ∃ k, c2q.meta.rcv_queue =
          qs10.meta.rcv_queue ++ skb_5_15 :: qs10.meta.ofo_queue.take k ∧
        c2q.meta.ofo_queue = qs10.meta.ofo_queue.drop k ∧
        c2q.meta.rcv_nxt = (qs10.meta.ofo_queue.take k).foldl
          (fun _ x => x.cb.end_data_seq) skb_5_15.cb.end_data_seq) :=
  ⟨by decide,
   claim2_inorder_segment_queued qs10 skb_5_15 tp_mpc skb_5_15 c2q MPTCP_QUEUED
     (by decide) (by decide) (by decide) (by decide) (by decide) (by decide)
     (by decide)⟩

def c3tp : Tp :=
  { tp_mpc with map_data_seq := 100, map_data_len := 50, map_subseq := 1000 }

def c3meta : MetaSock := { meta_rn10 with rcv_nxt := 100, copied_seq := 0 }

def c3skb : Skb :=
  { cb := { tcb_zero with seq := 1000, end_seq := 1050 }, len := 50,
    fin := false, dfin_opt := false, csum_bad := false, truesize := 100 }

/-- Counterexample to C3 as stated.  Mapping (data_seq 100, len 50,
subseq 1000), meta copied_seq = 0, meta rcv_nxt = 100, in-window segment
[1000,1050): the derived DSN range [100,150) contains the MCB's rcv_nxt
(100 ≤ 100 < 150), yet mptcp_get_dataseq_mapping reports
not-in-meta-order, because the code compares against the meta-level
copied_seq (0), not rcv_nxt. -/
theorem claim3_counterexample :
    (mptcp_get_dataseq_mapping c3tp mo_triv c3meta c3skb).map
      (fun r => (r.2.1.cb.data_seq, r.2.1.cb.end_data_seq, r.2.2)) =
      some (100, 150, false) ∧
    seq_before c3meta.rcv_nxt 100 = false ∧
    seq_before c3meta.rcv_nxt 150 = true := by decide

/-- C3 amended: for an in-subflow-order segment without its own carried
mapping that is not a pure subflow FIN, mptcp_get_dataseq_mapping
faults exactly when the segment's subflow interval leaves
[map_subseq, map_subseq + map_data_len + fin]; otherwise the mapping is
unchanged, data_seq = map_data_seq + (seq - map_subseq),
end_data_seq = data_seq + len except for one extra byte when a
previously recorded DFIN is confirmed on the segment, and the result is
in-meta-order exactly when the segment contains the meta-level
copied_seq (the next DSN to be handed to the application), not rcv_nxt. -/
theorem claim3_mapping_fault_and_order (tp : Tp) (mo : Mopt)
    (meta : MetaSock) (skb : Skb)
    (hnd : skb.cb.data_len = 0)
    (hnp : (skb.fin && !tp.saw_dfin && skb.len == 0) = false) :
    (mptcp_get_dataseq_mapping tp mo meta skb = none ↔
      (seq_before skb.cb.seq tp.map_subseq ||
       seq_after skb.cb.end_seq
         (u32 (tp.map_subseq + tp.map_data_len +
           (if skb.fin then 1 else 0)))) = true) ∧
    (∀ tp' skb' io,
      mptcp_get_dataseq_mapping tp mo meta skb = some (tp', skb', io) →
      tp' = tp ∧
      skb'.cb.data_seq = u32 (tp.map_data_seq + sub32 skb.cb.seq tp.map_subseq) ∧
      (mo.dfin_rcvd = false →
        skb'.cb.end_data_seq = u32 (skb'.cb.data_seq + skb.len)) ∧
      (skb'.cb.end_data_seq = u32 (skb'.cb.data_seq + skb.len) ∨
       skb'.cb.end_data_seq = u32 (u32 (skb'.cb.data_seq + skb.len) + 1)) ∧
      io = (!seq_before meta.copied_seq skb'.cb.data_seq &&
            seq_before meta.copied_seq skb'.cb.end_data_seq)) := by
  have hnd' : (skb.cb.data_len != 0) = false := by simp [hnd]
  unfold mptcp_get_dataseq_mapping
  rw [hnd']
  simp only [Bool.false_eq_true, if_false, hnp]
  by_cases hc : (seq_before skb.cb.seq tp.map_subseq ||
      seq_after skb.cb.end_seq
        (u32 (tp.map_subseq + tp.map_data_len +
          (if skb.fin then 1 else 0)))) = true
  · rw [if_pos hc]
    refine ⟨iff_of_true rfl hc, ?_⟩
    intro tp' skb' io h
    exact absurd h (by simp)
  · rw [if_neg hc]
    refine ⟨iff_of_false (by simp) hc, ?_⟩
    intro tp' skb' io h
    simp only [Option.some.injEq, Prod.mk.injEq] at h
    obtain ⟨h1, h2, h3⟩ := h
    refine ⟨h1.symm, ?_, ?_, ?_, ?_⟩
    · rw [← h2]
    · intro hdf
      rw [← h2]
      dsimp only
      simp [hdf]
    · rw [← h2]
      dsimp only
      split
      · right
        rfl
      · left
        rfl
    · rw [← h3, ← h2]

/-- Witness for amended C3 at the concrete in-window segment of the
fixtures. -/
theorem claim3_mapping_fault_and_order_witness :
    c3skb.cb.data_len = 0 ∧
    (c3skb.fin && !c3tp.saw_dfin && c3skb.len == 0) = false ∧
    (mptcp_get_dataseq_mapping c3tp mo_triv c3meta c3skb = none ↔
      (seq_before c3skb.cb.seq c3tp.map_subseq ||
       seq_after c3skb.cb.end_seq
         (u32 (c3tp.map_subseq + c3tp.map_data_len +
           (if c3skb.fin then 1 else 0)))) = true) :=
  ⟨rfl, by decide,
   (claim3_mapping_fault_and_order c3tp mo_triv c3meta c3skb rfl (by decide)).1⟩

/-! Send-side scheduler (net/ipv4/mptcp.c lines 120-158 and 777-802). -/

/-- Subflow fields read by the scheduler.  packets_in_flight models
tcp_packets_in_flight of include/net/tcp.h (not among the provided
sources); the spec describes the test as `in_flight < cwnd`. -/
structure SchedSub where
  sk_state : Nat
  pf : Bool
  path_index : Nat
  icsk_ca_state : Nat
  packets_in_flight : Nat
  snd_cwnd : Nat
  srtt : Nat
  deriving DecidableEq

/-- MCB fields read by the scheduler. -/
structure SchedMpcb where
  cnt_subflows : Nat
  noneligible : Nat
  connection_list : List SchedSub
  deriving DecidableEq

/-- tcp_cwnd_test (copied from tcp_output.c into net/ipv4/mptcp.c line
778): remaining window room, zero when the window is full. -/
def tcp_cwnd_test (s : SchedSub) : Nat :=
  if s.packets_in_flight < s.snd_cwnd then s.snd_cwnd - s.packets_in_flight
  else 0

/-- mptcp_is_available (net/ipv4/mptcp.c line 790): data may be sent on
a subflow iff its state is ESTABLISHED or CLOSE_WAIT, it is not in
pf-state, its bit is clear in the MCB's noneligible mask, it is not in
congestion-avoidance state Loss, and its congestion window has room. -/
def mptcp_is_available (noneligible : Nat) (s : SchedSub) : Bool :=
  if ((1 <<< s.sk_state) &&&
      (4294967295 ^^^ (TCPF_ESTABLISHED ||| TCPF_CLOSE_WAIT))) != 0 then false
  else if s.pf || ((noneligible &&& PI_TO_FLAG s.path_index) != 0) ||
      (s.icsk_ca_state == TCP_CA_Loss) then false
  else if tcp_cwnd_test s != 0 then true else false

/-- The subflow-selection loop of get_available_subflow (lines 140-154):
skip unavailable subflows and subflows whose path-index bit is already
set in the segment's path_mask; keep the first strictly-smaller srtt. -/
def sched_loop (ne pm : Nat) : List SchedSub → Option SchedSub → Nat → Option SchedSub × Nat
  | [], best, mintime => (best, mintime)
  | s :: rest, best, mintime =>
    if !mptcp_is_available ne s then sched_loop ne pm rest best mintime
    else if (PI_TO_FLAG s.path_index &&& pm) != 0 then
      sched_loop ne pm rest best mintime
    else if s.srtt < mintime then sched_loop ne pm rest (some s) s.srtt
    else sched_loop ne pm rest best mintime

/-- get_available_subflow (net/ipv4/mptcp.c line 120): with exactly one
subflow the scheduling loop (and hence the path_mask filter) is
bypassed; otherwise the loop starts from min_time_to_peer = 0xffffffff
and an empty best pointer. -/
def get_available_subflow (m : SchedMpcb) (path_mask : Nat) : Option SchedSub :=
  if m.cnt_subflows == 1 then
    match m.connection_list with
    | [] => none
    | b :: _ => if mptcp_is_available m.noneligible b then some b else none
  else (sched_loop m.noneligible path_mask m.connection_list none 4294967295).1

/-- A subflow the loop may pick: available and not masked by the
segment's path_mask. -/
def sched_eligible (ne pm : Nat) (s : SchedSub) : Bool :=
  mptcp_is_available ne s && ((PI_TO_FLAG s.path_index &&& pm) == 0)

/-- Invariant of the selection loop: any returned subflow is eligible,
came from the accumulator or the list, and carries the final minimum;
the minimum never increases and bounds every eligible srtt seen; a none
result means the accumulator was none and the minimum never moved. -/
theorem sched_loop_spec (ne pm : Nat) (l : List SchedSub) :
    ∀ (b0 : Option SchedSub) (t0 : Nat),
    (∀ c, b0 = some c → sched_eligible ne pm c = true ∧ c.srtt = t0) →
    ((∀ c, (sched_loop ne pm l b0 t0).1 = some c →
        sched_eligible ne pm c = true ∧ c.srtt = (sched_loop ne pm l b0 t0).2 ∧
        (b0 = some c ∨ c ∈ l)) ∧
      (sched_loop ne pm l b0 t0).2 ≤ t0 ∧
      (∀ c ∈ l, sched_eligible ne pm c = true →
        (sched_loop ne pm l b0 t0).2 ≤ c.srtt) ∧
      ((sched_loop ne pm l b0 t0).1 = none →
        b0 = none ∧ (sched_loop ne pm l b0 t0).2 = t0)) := by
  induction l with
  | nil =>
    intro b0 t0 H0
    refine ⟨?_, le_refl _, ?_, ?_⟩
    · intro c hc
      rw [sched_loop] at hc
      exact ⟨(H0 c hc).1, by rw [sched_loop]; exact (H0 c hc).2, Or.inl hc⟩
    · intro c hc
      simp at hc
    · intro h
      rw [sched_loop] at h
      exact ⟨h, by rw [sched_loop]⟩
  | cons s rest ih =>
    intro b0 t0 H0
    by_cases hA : mptcp_is_available ne s = true
    · by_cases hB : (PI_TO_FLAG s.path_index &&& pm) = 0
      · by_cases hC : s.srtt < t0
        · have hstep : sched_loop ne pm (s :: rest) b0 t0 =
              sched_loop ne pm rest (some s) s.srtt := by
            rw [sched_loop]
            simp [hA, hB, hC]
          have helig : sched_eligible ne pm s = true := by
            simp [sched_eligible, hA, hB]
          obtain ⟨P1, P2, P3, P4⟩ := ih (some s) s.srtt
            (fun c hc => by
              obtain rfl := Option.some.inj hc
              exact ⟨helig, rfl⟩)
          rw [hstep]
          refine ⟨?_, le_trans P2 (le_of_lt hC), ?_, ?_⟩
          · intro c hc
            obtain ⟨q1, q2, q3⟩ := P1 c hc
            refine ⟨q1, q2, Or.inr ?_⟩
            rcases q3 with h | h
            · obtain rfl := Option.some.inj h
              exact List.mem_cons_self _ _
            · exact List.mem_cons_of_mem _ h
          · intro c hc he
            rcases List.mem_cons.mp hc with rfl | hm
            · exact P2
            · exact P3 c hm he
          · intro h
            obtain ⟨habs, _⟩ := P4 h
            exact absurd habs (by simp)
        · have hstep : sched_loop ne pm (s :: rest) b0 t0 =
              sched_loop ne pm rest b0 t0 := by
            rw [sched_loop]
            simp [hA, hB, hC]
          obtain ⟨P1, P2, P3, P4⟩ := ih b0 t0 H0
          rw [hstep]
          refine ⟨?_, P2, ?_, ?_⟩
          · intro c hc
            obtain ⟨q1, q2, q3⟩ := P1 c hc
            exact ⟨q1, q2, q3.imp id (List.mem_cons_of_mem _)⟩
          · intro c hc he
            rcases List.mem_cons.mp hc with rfl | hm
            · exact le_trans P2 (le_of_not_lt hC)
            · exact P3 c hm he
          · exact P4
      · have hstep : sched_loop ne pm (s :: rest) b0 t0 =
            sched_loop ne pm rest b0 t0 := by
          rw [sched_loop]
          simp [hA, hB]
        obtain ⟨P1, P2, P3, P4⟩ := ih b0 t0 H0
        rw [hstep]
        refine ⟨?_, P2, ?_, ?_⟩
        · intro c hc
          obtain ⟨q1, q2, q3⟩ := P1 c hc
          exact ⟨q1, q2, q3.imp id (List.mem_cons_of_mem _)⟩
        · intro c hc he
          rcases List.mem_cons.mp hc with rfl | hm
          · exact absurd he (by simp [sched_eligible, hB])
          · exact P3 c hm he
        · exact P4
    · have hstep : sched_loop ne pm (s :: rest) b0 t0 =
          sched_loop ne pm rest b0 t0 := by
        rw [sched_loop]
        simp [hA]
      obtain ⟨P1, P2, P3, P4⟩ := ih b0 t0 H0
      rw [hstep]
      refine ⟨?_, P2, ?_, ?_⟩
      · intro c hc
        obtain ⟨q1, q2, q3⟩ := P1 c hc
        exact ⟨q1, q2, q3.imp id (List.mem_cons_of_mem _)⟩
      · intro c hc he
        rcases List.mem_cons.mp hc with rfl | hm
        · exact absurd he (by simp [sched_eligible, hA])
        · exact P3 c hm he
      · exact P4

def sub1 : SchedSub :=
  { sk_state := TCP_ESTABLISHED, pf := false, path_index := 1,
    icsk_ca_state := 0, packets_in_flight := 0, snd_cwnd := 10, srtt := 10 }

def sub2 : SchedSub :=
  { sk_state := TCP_ESTABLISHED, pf := false, path_index := 2,
    icsk_ca_state := 0, packets_in_flight := 0, snd_cwnd := 10, srtt := 20 }

def sm2 : SchedMpcb :=
  { cnt_subflows := 2, noneligible := 0, connection_list := [sub1, sub2] }

def sm1 : SchedMpcb :=
  { cnt_subflows := 1, noneligible := 0, connection_list := [sub1] }

/-- Counterexample to C4 as stated.  Two candidate subflows (both
ESTABLISHED, not pf, not Loss, not noneligible, window room): srtt 10
on path 1 and srtt 20 on path 2.  On a segment whose path_mask has the
path-1 bit set, the scheduler skips the smallest-srtt candidate and
returns the srtt-20 subflow, so it does not return a candidate with
the smallest smoothed RTT. -/
theorem claim4_counterexample :
    get_available_subflow sm2 1 = some sub2 ∧
    mptcp_is_available sm2.noneligible sub1 = true ∧
    sub1 ∈ sm2.connection_list ∧
    sub1.srtt < sub2.srtt := by decide

/-- C4 amended: get_available_subflow only returns subflows that pass
mptcp_is_available (state ESTABLISHED/CLOSE_WAIT, not pf, not Loss, not
noneligible, window room).  With two or more subflows the result is
additionally not masked by the segment's path_mask and has the smallest
srtt among the available unmasked subflows, and a none result means no
available unmasked subflow exists (given every srtt is below the
0xffffffff sentinel the loop starts from).  With exactly one subflow
the loop is bypassed and the subflow is returned iff it is available,
the path_mask notwithstanding. -/
theorem claim4_scheduler_candidates (m : SchedMpcb) (pm : Nat)
    (hwf : m.cnt_subflows = m.connection_list.length)
    (hsrtt : ∀ s ∈ m.connection_list, s.srtt < 4294967295) :
    (∀ s, get_available_subflow m pm = some s →
      s ∈ m.connection_list ∧ mptcp_is_available m.noneligible s = true) ∧
    (m.connection_list.length ≠ 1 →
      ∀ s, get_available_subflow m pm = some s →
        (PI_TO_FLAG s.path_index &&& pm) = 0 ∧
        ∀ c ∈ m.connection_list, sched_eligible m.noneligible pm c = true →
          s.srtt ≤ c.srtt) ∧
    (m.connection_list.length ≠ 1 → get_available_subflow m pm = none →
      ∀ c ∈ m.connection_list, sched_eligible m.noneligible pm c = false) ∧
    (∀ b rest, m.connection_list = b :: rest → m.cnt_subflows = 1 →
      get_available_subflow m pm =
        (if mptcp_is_available m.noneligible b then some b else none)) := by
  have H0 : ∀ c : SchedSub, (none : Option SchedSub) = some c →
      sched_eligible m.noneligible pm c = true ∧ c.srtt = 4294967295 := by
    intro c hc
    exact absurd hc (by simp)
  obtain ⟨P1, P2, P3, P4⟩ :=
    sched_loop_spec m.noneligible pm m.connection_list none 4294967295 H0
  by_cases hone : m.cnt_subflows = 1
  · have hone' : (m.cnt_subflows == 1) = true := by simp [hone]
    refine ⟨?_, ?_, ?_, ?_⟩
    · intro s hs
      unfold get_available_subflow at hs
      rw [if_pos hone'] at hs
      cases hl : m.connection_list with
      | nil => rw [hl] at hs; exact absurd hs (by simp)
      | cons b rest =>
        rw [hl] at hs
        dsimp only at hs
        by_cases hb : mptcp_is_available m.noneligible b = true
        · rw [if_pos hb] at hs
          obtain rfl := Option.some.inj hs
          exact ⟨List.mem_cons_self _ _, hb⟩
        · rw [if_neg hb] at hs
          exact absurd hs (by simp)
    · intro hlen
      exact absurd (hwf ▸ hone) hlen
    · intro hlen
      exact absurd (hwf ▸ hone) hlen
    · intro b rest hl _
      unfold get_available_subflow
      rw [if_pos hone', hl]
  · have hone' : (m.cnt_subflows == 1) = false := by simp [hone]
    have hget : get_available_subflow m pm =
        (sched_loop m.noneligible pm m.connection_list none 4294967295).1 := by
      unfold get_available_subflow
      rw [if_neg (by simp [hone'])]
    refine ⟨?_, ?_, ?_, ?_⟩
    · intro s hs
      rw [hget] at hs
      obtain ⟨q1, _, q3⟩ := P1 s hs
      refine ⟨?_, ?_⟩
      · rcases q3 with h | h
        · exact absurd h (by simp)
        · exact h
      · simp only [sched_eligible, Bool.and_eq_true] at q1
        exact q1.1
    · intro _ s hs
      rw [hget] at hs
      obtain ⟨q1, q2, _⟩ := P1 s hs
      simp only [sched_eligible, Bool.and_eq_true, beq_iff_eq] at q1
      refine ⟨q1.2, ?_⟩
      · intro c hc he
        rw [q2]
        exact P3 c hc he
    · intro _ hnone
      rw [hget] at hnone
      obtain ⟨_, ht⟩ := P4 hnone
      intro c hc
      by_contra he
      rw [Bool.not_eq_false] at he
      have h1 := P3 c hc he
      rw [ht] at h1
      exact absurd (lt_of_le_of_lt h1 (hsrtt c hc)) (lt_irrefl _)
    · intro b rest hl hcnt
      exact absurd hcnt hone

/-- Witness for amended C4: the scheduler's pick on the concrete
two-subflow MCB is a listed, available subflow. -/
theorem claim4_scheduler_candidates_witness :
    sub2 ∈ sm2.connection_list ∧
    mptcp_is_available sm2.noneligible sub2 = true :=
  (claim4_scheduler_candidates sm2 1 rfl (by decide)).1 sub2 (by decide)

/-- C10.  With at least two subflows the scheduler never returns a
subflow whose path-index bit is set in the segment's path_mask; with
exactly one subflow the path_mask check is bypassed and the single
subflow is returned even though its bit is set. -/
theorem claim10_path_mask_never_reselected :
    (∀ (m : SchedMpcb) (pm : Nat) (s : SchedSub),
      m.cnt_subflows = m.connection_list.length → 2 ≤ m.cnt_subflows →
      get_available_subflow m pm = some s →
      (PI_TO_FLAG s.path_index &&& pm) = 0) ∧
    (get_available_subflow sm1 (PI_TO_FLAG sub1.path_index) = some sub1 ∧
      (PI_TO_FLAG sub1.path_index &&& PI_TO_FLAG sub1.path_index) ≠ 0) := by
  constructor
  · intro m pm s hwf hcnt hres
    have hone : m.cnt_subflows ≠ 1 := by omega
    have H0 : ∀ c : SchedSub, (none : Option SchedSub) = some c →
        sched_eligible m.noneligible pm c = true ∧ c.srtt = 4294967295 := by
      intro c hc
      exact absurd hc (by simp)
    obtain ⟨P1, _, _, _⟩ :=
      sched_loop_spec m.noneligible pm m.connection_list none 4294967295 H0
    unfold get_available_subflow at hres
    rw [if_neg (by simp [hone])] at hres
    obtain ⟨q1, _, _⟩ := P1 s hres
    simp only [sched_eligible, Bool.and_eq_true, beq_iff_eq] at q1
    exact q1.2
  · exact ⟨by decide, by decide⟩

/-- Witness for C10 at the concrete two-subflow MCB: the selected
subflow's path-index bit is absent from the segment's path_mask. -/
theorem claim10_path_mask_never_reselected_witness :
    (PI_TO_FLAG sub2.path_index &&& 1) = 0 :=
  claim10_path_mask_never_reselected.1 sm2 1 sub2 rfl (by decide) (by decide)

/-! Option parser and path-manager address learning
(net/ipv4/mptcp.c lines 1441-1569, net/ipv4/mptcp_pm.c lines 732-850). -/

def MPTCP_SUB_CAPABLE : Nat := 0

def MPTCP_SUB_JOIN : Nat := 1

def MPTCP_SUB_DSS : Nat := 2

def MPTCP_SUB_ADD_ADDR : Nat := 3

/-- Expected MP_CAPABLE / MP_JOIN option lengths compared by the parser
(the bare macros resolve to the values in include/net/mtcp.h, the only
definitions of these names in this tree). -/
def MPTCP_SUB_LEN_CAPABLE : Nat := 8

def MPTCP_SUB_LEN_JOIN : Nat := 8

def MPTCP_SUB_LEN_ACK : Nat := 4

def MPTCP_SUB_LEN_SEQ : Nat := 10

def MPTCP_SUB_LEN_ADD_ADDR4 : Nat := 8

def MPTCP_SUB_LEN_ADD_ADDR6 : Nat := 20

def MPTCP_MAX_ADDR : Nat := 12

/-- Read the i-th option byte (0 past the end, as a permissive model of
the raw buffer; the claims only exercise in-range reads). -/
def byteAt (l : List Nat) (i : Nat) : Nat := (l.getD i 0) % 256

def getBE16 (l : List Nat) (i : Nat) : Nat := byteAt l i * 256 + byteAt l (i + 1)

def getBE32 (l : List Nat) (i : Nat) : Nat :=
  ((byteAt l i * 256 + byteAt l (i + 1)) * 256 + byteAt l (i + 2)) * 256 +
    byteAt l (i + 3)

def getBE128 (l : List Nat) (i : Nat) : Nat :=
  (List.range 16).foldl (fun a j => a * 256 + byteAt l (i + j)) 0

/-- Per-segment option fields of struct tcp_options_received written by
mptcp_parse_options (include/linux/tcp_options.h plus the MPTCP token
fields of this tree's linux/tcp.h). -/
structure OptRx where
  saw_mpc : Bool
  saw_dfin : Bool
  mptcp_rem_token : Nat
  mptcp_recv_token : Nat
  rem_id : Nat
  rcv_isn : Nat
  deriving DecidableEq

/-- Outcome of the matching loop of mptcp_v4/v6_add_raddress. -/
inductive RaddrScan where
  | exact : RaddrScan
  | natUpdate : Nat → RaddrScan
  | miss : RaddrScan
  deriving DecidableEq

def raddr_scan4 (addr port id : Nat) : List Loc4 → Nat → RaddrScan
  | [], _ => RaddrScan.miss
  | x :: xs, i =>
    if x.addr == addr && x.port == port then RaddrScan.exact
    else if x.id == id && x.addr != addr then RaddrScan.natUpdate i
    else raddr_scan4 addr port id xs (i + 1)

/-- mptcp_v4_add_raddress (net/ipv4/mptcp_pm.c line 732).  id 0 is the
ULID and is never stored.  An exact (address, port) match is a no-op; a
stored entry with the same id but another address is updated in place
(NAT case); a full list returns -1 without mutation.  Otherwise the C
code stores the new address through the `loc4` pointer left by the scan
loop, which after a full scan points at slot num_addr4 - 1 (slot 0 when
the list is empty), and increments num_addr4; the store index below is
num_addr4 - 1 in truncated Nat subtraction, exactly the C pointer.
BUG_ON(num_addr4 > MPTCP_MAX_ADDR) is modelled as `none`. -/
def mptcp_v4_add_raddress (mo : Mopt) (addr port id : Nat) :
    Option (Mopt × Int) :=
  if id == 0 then some (mo, 0)
  else if MPTCP_MAX_ADDR < mo.num_addr4 then none
  else
    match raddr_scan4 addr port id (mo.addr4.take mo.num_addr4) 0 with
    | RaddrScan.exact => some (mo, 0)
    | RaddrScan.natUpdate i =>
      let old := mo.addr4.getD i ⟨0, 0, 0⟩
      some ({ mo with
        addr4 := mo.addr4.set i { old with addr := addr, port := port },
        list_rcvd := true }, 0)
    | RaddrScan.miss =>
      if mo.num_addr4 == MPTCP_MAX_ADDR then some (mo, -1)
      else some ({ mo with
        addr4 := mo.addr4.set (mo.num_addr4 - 1)
          { id := id, addr := addr, port := port },
        list_rcvd := true,
        num_addr4 := mo.num_addr4 + 1 }, 0)

def raddr_scan6 (addr port id : Nat) : List Loc6 → Nat → RaddrScan
  | [], _ => RaddrScan.miss
  | x :: xs, i =>
    if x.addr == addr then RaddrScan.exact
    else if x.id == id && x.addr != addr then RaddrScan.natUpdate i
    else raddr_scan6 addr port id xs (i + 1)

/-- mptcp_v6_add_raddress (net/ipv4/mptcp_pm.c line 795): as the v4
variant, except the exact-match test compares only the address.  The
same stale store pointer is used for the append. -/
def mptcp_v6_add_raddress (mo : Mopt) (addr port id : Nat) :
    Option (Mopt × Int) :=
  if id == 0 then some (mo, 0)
  else if MPTCP_MAX_ADDR < mo.num_addr6 then none
  else
    match raddr_scan6 addr port id (mo.addr6.take mo.num_addr6) 0 with
    | RaddrScan.exact => some (mo, 0)
    | RaddrScan.natUpdate i =>
      let old := mo.addr6.getD i ⟨0, 0, 0⟩
      some ({ mo with
        addr6 := mo.addr6.set i { old with addr := addr, port := port },
        list_rcvd := true }, 0)
    | RaddrScan.miss =>
      if mo.num_addr6 == MPTCP_MAX_ADDR then some (mo, -1)
      else some ({ mo with
        addr6 := mo.addr6.set (mo.num_addr6 - 1)
          { id := id, addr := addr, port := port },
        list_rcvd := true,
        num_addr6 := mo.num_addr6 + 1 }, 0)

/-- mptcp_parse_options (net/ipv4/mptcp.c line 1441).  `bytes` are the
option bytes starting at the subtype byte (after kind and length),
`opsize` the option's length field, `ptrOff` the byte offset of the
option body from the transport header (used for dss_off).  The per-flag
wire layout follows the little-endian bitfields of include/net/mptcp.h:
the subtype is the high nibble of byte 0; in the DSS flag byte (byte 1)
A is bit 0, M bit 2 and F bit 4.  MP_CAPABLE and MP_JOIN are dropped on
a length mismatch; the DSS branch carries the source's TODO and checks
no length at all; ADD_ADDR validates the length per ip version and
reads one byte for an appended port (as the C cast does).  `none`
models the null-mopt dereference inside the add_raddress calls and
their BUG_ON. -/
def mptcp_parse_options (bytes : List Nat) (opsize : Nat) (rx : OptRx)
    (mopt : Option Mopt) (cb : Tcb) (ptrOff : Nat)
    (mptcp_enabled mptcp_checksum : Bool) :
    Option (OptRx × Option Mopt × Tcb) :=
  let sub := byteAt bytes 0 >>> 4
  if sub == MPTCP_SUB_CAPABLE then
    if opsize != MPTCP_SUB_LEN_CAPABLE then some (rx, mopt, cb)
    else if !mptcp_enabled then some (rx, mopt, cb)
    else
      let c := byteAt bytes 1 >>> 7
      some ({ rx with saw_mpc := true, mptcp_rem_token := getBE32 bytes 2 },
        mopt.map (fun mo =>
          { mo with list_rcvd := true,
                    dss_csum := mptcp_checksum || (c == 1) }), cb)
  else if sub == MPTCP_SUB_JOIN then
    if opsize != MPTCP_SUB_LEN_JOIN then some (rx, mopt, cb)
    else
      some ({ rx with mptcp_recv_token := getBE32 bytes 2,
                      rem_id := byteAt bytes 1 }, mopt, cb)
  else if sub == MPTCP_SUB_DSS then
    let hasA := byteAt bytes 1 &&& 1 != 0
    let hasM := byteAt bytes 1 &&& 4 != 0
    let hasF := byteAt bytes 1 &&& 16 != 0
    let cb := if hasA then
        { cb with data_ack := getBE32 bytes 2,
                  mptcp_flags := cb.mptcp_flags ||| MPTCPHDR_ACK }
      else cb
    let off := if hasA then 2 + MPTCP_SUB_LEN_ACK else 2
    let cb := if hasM then
        let cb := if (mopt.map (fun mo => mo.dss_csum)).getD false then
            { cb with dss_off := (ptrOff + off) >>> 2 }
          else cb
        let ds := getBE32 bytes off
        { cb with data_seq := ds,
                  sub_seq := u32 (getBE32 bytes (off + 4) + rx.rcv_isn),
                  data_len := getBE16 bytes (off + 8),
                  end_data_seq := u32 (ds + sub32 cb.end_seq cb.seq) }
      else cb
    if hasF then
      let cb := { cb with end_data_seq := u32 (cb.end_data_seq + 1) }
      match mopt with
      | some mo =>
        some ({ rx with saw_dfin := true },
          some { mo with dfin_rcvd := true,
                         fin_dsn := u32 (cb.data_seq + cb.data_len) }, cb)
      | none => some (rx, none, cb)
    else some (rx, mopt, cb)
  else if sub == MPTCP_SUB_ADD_ADDR then
    let ipver := byteAt bytes 0 &&& 15
    if (ipver == 4 && opsize != MPTCP_SUB_LEN_ADD_ADDR4 &&
        opsize != MPTCP_SUB_LEN_ADD_ADDR4 + 2) ||
       (ipver == 6 && opsize != MPTCP_SUB_LEN_ADD_ADDR6 &&
        opsize != MPTCP_SUB_LEN_ADD_ADDR6 + 2) then
      some (rx, mopt, cb)
    else if ipver == 4 then
      let port := if opsize == MPTCP_SUB_LEN_ADD_ADDR4 + 2 then byteAt bytes 6
        else 0
      match mopt with
      | some mo =>
        (mptcp_v4_add_raddress mo (getBE32 bytes 2) port (byteAt bytes 1)).map
          (fun r => (rx, some r.1, cb))
      | none => none
    else if ipver == 6 then
      let port := if opsize == MPTCP_SUB_LEN_ADD_ADDR6 + 2 then byteAt bytes 18
        else 0
      match mopt with
      | some mo =>
        (mptcp_v6_add_raddress mo (getBE128 bytes 2) port (byteAt bytes 1)).map
          (fun r => (rx, some r.1, cb))
      | none => none
    else some (rx, mopt, cb)
  else some (rx, mopt, cb)

def rx0 : OptRx := ⟨false, false, 0, 0, 0, 0⟩

/-- Counterexample to C5 as stated.  A DSS sub-option (subtype 2 in
byte 0's high nibble, A-flag set) with the impossible length field 5
(valid DSS lengths are 4 plus 4 for an ack and 10 or 12 for a mapping)
is parsed anyway: the per-segment record's data_ack and mptcp_flags
change, because the DSS branch of mptcp_parse_options never checks
opsize (the source carries a TODO for it). -/
theorem claim5_counterexample :
    (5 : Nat) ∉ ([4, 8, 14, 16, 18] : List Nat) ∧
    mptcp_parse_options [32, 1, 0, 0, 0, 7] 5 rx0 (some mo_triv) tcb_zero
      20 true true =
      some (rx0, some mo_triv,
        { tcb_zero with data_ack := 7, mptcp_flags := MPTCPHDR_ACK }) ∧
    ({ tcb_zero with data_ack := 7, mptcp_flags := MPTCPHDR_ACK } : Tcb) ≠
      tcb_zero := by decide

/-- C5 amended: for MP_CAPABLE, MP_JOIN and ADD_ADDR a length field
that does not match the expected length for the subtype leaves the
per-segment record and the MCB accumulator unchanged, as does any
unrecognized subtype (including MP_FAIL, which this parser does not
handle); the DSS branch is the exception, it does not validate its
length at all. -/
theorem claim5_malformed_option_ignored (bytes : List Nat) (opsize : Nat)
    (rx : OptRx) (mopt : Option Mopt) (cb : Tcb) (ptrOff : Nat)
    (en cs : Bool) :
    (byteAt bytes 0 >>> 4 = MPTCP_SUB_CAPABLE →
      opsize ≠ MPTCP_SUB_LEN_CAPABLE →
      mptcp_parse_options bytes opsize rx mopt cb ptrOff en cs =
        some (rx, mopt, cb)) ∧
    (byteAt bytes 0 >>> 4 = MPTCP_SUB_JOIN → opsize ≠ MPTCP_SUB_LEN_JOIN →
      mptcp_parse_options bytes opsize rx mopt cb ptrOff en cs =
        some (rx, mopt, cb)) ∧
    (byteAt bytes 0 >>> 4 = MPTCP_SUB_ADD_ADDR →
      ((byteAt bytes 0 &&& 15 = 4 ∧ opsize ≠ MPTCP_SUB_LEN_ADD_ADDR4 ∧
        opsize ≠ MPTCP_SUB_LEN_ADD_ADDR4 + 2) ∨
       (byteAt bytes 0 &&& 15 = 6 ∧ opsize ≠ MPTCP_SUB_LEN_ADD_ADDR6 ∧
        opsize ≠ MPTCP_SUB_LEN_ADD_ADDR6 + 2)) →
      mptcp_parse_options bytes opsize rx mopt cb ptrOff en cs =
        some (rx, mopt, cb)) ∧
    (byteAt bytes 0 >>> 4 ≠ MPTCP_SUB_CAPABLE →
      byteAt bytes 0 >>> 4 ≠ MPTCP_SUB_JOIN →
      byteAt bytes 0 >>> 4 ≠ MPTCP_SUB_DSS →
      byteAt bytes 0 >>> 4 ≠ MPTCP_SUB_ADD_ADDR →
      mptcp_parse_options bytes opsize rx mopt cb ptrOff en cs =
        some (rx, mopt, cb)) := by
  refine ⟨?_, ?_, ?_, ?_⟩
  · intro hsub hlen
    unfold mptcp_parse_options
    simp [hsub, hlen]
  · intro hsub hlen
    unfold mptcp_parse_options
    rw [hsub]
    simp [MPTCP_SUB_JOIN, MPTCP_SUB_CAPABLE, hlen]
  · intro hsub hlen
    unfold mptcp_parse_options
    rw [hsub]
    rcases hlen with ⟨hv, ha, hb⟩ | ⟨hv, ha, hb⟩ <;>
      simp only [MPTCP_SUB_LEN_ADD_ADDR4, MPTCP_SUB_LEN_ADD_ADDR6] at ha hb <;>
      norm_num at ha hb <;>
      simp [MPTCP_SUB_ADD_ADDR, MPTCP_SUB_CAPABLE, MPTCP_SUB_JOIN,
        MPTCP_SUB_DSS, MPTCP_SUB_LEN_ADD_ADDR4, MPTCP_SUB_LEN_ADD_ADDR6,
        hv, ha, hb]
  · intro h0 h1 h2 h3
    simp only [MPTCP_SUB_CAPABLE, MPTCP_SUB_JOIN, MPTCP_SUB_DSS,
      MPTCP_SUB_ADD_ADDR] at h0 h1 h2 h3
    unfold mptcp_parse_options
    simp [h0, h1, h2, h3, MPTCP_SUB_CAPABLE, MPTCP_SUB_JOIN, MPTCP_SUB_DSS,
      MPTCP_SUB_ADD_ADDR]

/-- Witness for amended C5: a concrete MP_CAPABLE with a wrong length
(7 instead of 8) leaves everything unchanged. -/
theorem claim5_malformed_option_ignored_witness :
    mptcp_parse_options [0, 128, 0, 0, 1, 5, 0, 0] 7 rx0 (some mo_triv)
      tcb_zero 0 true true = some (rx0, some mo_triv, tcb_zero) :=
  (claim5_malformed_option_ignored [0, 128, 0, 0, 1, 5, 0, 0] 7 rx0
    (some mo_triv) tcb_zero 0 true true).1 (by decide) (by decide)

/-! Token allocation and token hash table (net/ipv4/mptcp_pm.c
lines 33-35, 77-87, 197-207). -/

def MPTCP_HASH_SIZE : Nat := 16

/-- hash_tk (net/ipv4/mptcp_pm.c line 34) computes
jhash_1word(token, 0) % MPTCP_HASH_SIZE.  Modelled from the spec: the
body of jhash_1word (include/linux/jhash.h) is not among the provided
sources; the spec states the map is "keyed by token mod HASH_SIZE", so
the missing hash is modelled as the identity on the token. -/
def hash_tk (token : Nat) : Nat := token % MPTCP_HASH_SIZE

/-- mptcp_new_token (net/ipv4/mptcp_pm.c line 203):
atomic_inc_return on a single process-wide counter; returns the
incremented value, which is also the new counter (u32 wrap). -/
def mptcp_new_token (latest_token : Nat) : Nat × Nat :=
  let t := u32 (latest_token + 1)
  (t, t)

/-- Counter value after n calls, starting from the static initial 0. -/
def token_counter : Nat → Nat
  | 0 => 0
  | n + 1 => (mptcp_new_token (token_counter n)).2

/-- Token returned by the (n+1)-th call. -/
def token_ret (n : Nat) : Nat := (mptcp_new_token (token_counter n)).1

theorem token_counter_eq (n : Nat) : token_counter n = n % U32 := by
  induction n with
  | zero => rfl
  | succ n ih =>
    show (mptcp_new_token (token_counter n)).2 = (n + 1) % U32
    rw [ih]
    show u32 (n % U32 + 1) = (n + 1) % U32
    simp [u32, Nat.mod_add_mod]

theorem token_ret_eq (n : Nat) : token_ret n = (n + 1) % U32 := by
  show (mptcp_new_token (token_counter n)).1 = (n + 1) % U32
  rw [token_counter_eq]
  show u32 (n % U32 + 1) = (n + 1) % U32
  simp [u32, Nat.mod_add_mod]

/-- The token hash table, bucket index to collision list of MCBs
(MCBs identified by an abstract handle). -/
def mptcp_hash_insert (tbl : Nat → List Nat) (mpcb token : Nat) :
    Nat → List Nat :=
  fun b => if b = hash_tk token then mpcb :: tbl b else tbl b

/-- C6.  Tokens come from monotonically incrementing one process-wide
counter (each call returns counter+1 and stores it back), hence any two
of the first 2^32 tokens handed out are distinct, so live MCBs hold
pairwise distinct tokens; and mptcp_hash_insert places the MCB at the
head of the bucket token mod HASH_SIZE, leaving every other bucket
unchanged. -/
theorem claim6_token_alloc_and_hash :
    (∀ n, token_counter (n + 1) = u32 (token_counter n + 1) ∧
      token_ret n = token_counter (n + 1)) ∧
    (∀ i j, i < j → j < U32 → token_ret i ≠ token_ret j) ∧
    (∀ (tbl : Nat → List Nat) (mpcb token : Nat),
      mptcp_hash_insert tbl mpcb token (hash_tk token) =
        mpcb :: tbl (hash_tk token) ∧
      (∀ b, b ≠ hash_tk token → mptcp_hash_insert tbl mpcb token b = tbl b) ∧
      hash_tk token = token % MPTCP_HASH_SIZE) := by
  refine ⟨?_, ?_, ?_⟩
  · intro n
    exact ⟨rfl, rfl⟩
  · intro i j hij hj hne
    rw [token_ret_eq, token_ret_eq] at hne
    have hU : 0 < U32 := by norm_num [U32]
    by_cases hcase : j + 1 = U32
    · rw [hcase, Nat.mod_self, Nat.mod_eq_of_lt (by omega)] at hne
      omega
    · rw [Nat.mod_eq_of_lt (by omega), Nat.mod_eq_of_lt (by omega)] at hne
      omega
  · intro tbl mpcb token
    refine ⟨by simp [mptcp_hash_insert], ?_, rfl⟩
    intro b hb
    simp [mptcp_hash_insert, hb]

/-- Witness for C6: the first two tokens handed out are distinct. -/
theorem claim6_token_alloc_and_hash_witness :
    0 < 1 ∧ (1 : Nat) < U32 ∧ token_ret 0 ≠ token_ret 1 :=
  ⟨by decide, by norm_num [U32],
   claim6_token_alloc_and_hash.2.1 0 1 (by decide) (by norm_num [U32])⟩

def c7mo : Mopt :=
  { mo_triv with
    num_addr4 := 1,
    addr4 := [⟨1, 3221225985, 0⟩, ⟨0, 0, 0⟩] }

def c7full : Mopt :=
  { mo_triv with
    num_addr4 := 12,
    addr4 := [⟨1, 101, 0⟩, ⟨2, 102, 0⟩, ⟨3, 103, 0⟩, ⟨4, 104, 0⟩,
      ⟨5, 105, 0⟩, ⟨6, 106, 0⟩, ⟨7, 107, 0⟩, ⟨8, 108, 0⟩, ⟨9, 109, 0⟩,
      ⟨10, 110, 0⟩, ⟨11, 111, 0⟩, ⟨12, 112, 0⟩] }

/-- C7 is right about the exact-match no-op, the NAT-case in-place
update and the bounded-list -1 (all shown below on concrete states),
but the append case is a code bug: the scan loop leaves `loc4` pointing
at the LAST stored slot (addr4[num_addr4 - 1]), and the "Address is not
known yet, store it" tail writes the new address through that stale
pointer, destroying the previously stored entry, and then increments
num_addr4, counting a slot that was never written.  Adding a new
address (id 2, 192.0.2.2) to a one-entry list {id 1, 192.0.2.1}
overwrites slot 0 and leaves no slot holding 192.0.2.1. -/
theorem claim7_add_raddress_append_bug :
    mptcp_v4_add_raddress c7mo 3221225986 0 2 =
      some ({ c7mo with addr4 := [⟨2, 3221225986, 0⟩, ⟨0, 0, 0⟩],
                        num_addr4 := 2, list_rcvd := true }, 0) ∧
    (([⟨2, 3221225986, 0⟩, ⟨0, 0, 0⟩] : List Loc4).take 2).all
      (fun e => e.addr != 3221225985) = true ∧
    mptcp_v4_add_raddress c7mo 3221225985 0 1 = some (c7mo, 0) ∧
    mptcp_v4_add_raddress c7mo 7 0 1 =
      some ({ c7mo with addr4 := [⟨1, 7, 0⟩, ⟨0, 0, 0⟩],
                        list_rcvd := true }, 0) ∧
    mptcp_v4_add_raddress c7full 999 0 50 = some (c7full, -1) := by decide

/-! Subflow registry and buffer aggregation (net/ipv4/mptcp.c
lines 590-725, 1696-1733). -/

/-- Subflow fields read and written by attach/detach and the
aggregation functions. -/
structure RSub where
  window_clamp : Nat
  rcv_ssthresh : Nat
  sk_rcvbuf : Nat
  sk_sndbuf : Nat
  sk_rmem_alloc : Nat
  sk_state : Nat
  path_index : Nat
  rem_token : Nat
  mpc : Bool
  attached : Bool
  deriving DecidableEq

/-- MCB/meta-socket fields of the registry: the subflow list, the
counters, and the aggregated meta values written by
mptcp_update_window_clamp and mptcp_update_sndbuf. -/
structure RMpcb where
  connection_list : List RSub
  cnt_subflows : Nat
  cnt_established : Nat
  master_rem_token : Nat
  meta_mpc : Bool
  meta_window_clamp : Nat
  meta_rcv_ssthresh : Nat
  meta_rcvbuf : Nat
  meta_sndbuf : Nat
  meta_rmem_alloc : Nat
  meta_sk_state : Nat
  deriving DecidableEq

def sum_clamp (l : List RSub) : Nat := l.foldl (fun a s => a + s.window_clamp) 0

def sum_ssthresh (l : List RSub) : Nat :=
  l.foldl (fun a s => a + s.rcv_ssthresh) 0

def sum_rcvbuf (l : List RSub) : Nat := l.foldl (fun a s => a + s.sk_rcvbuf) 0

def sum_sndbuf (l : List RSub) : Nat := l.foldl (fun a s => a + s.sk_sndbuf) 0

/-- mptcp_update_window_clamp (net/ipv4/mptcp.c line 1696): recompute
the meta window_clamp, rcv_ssthresh and sk_rcvbuf as the sums over the
subflow list (u32 accumulation); a no-op on a non-mpc socket. -/
def mptcp_update_window_clamp (m : RMpcb) : RMpcb :=
  if !m.meta_mpc then m
  else
    { m with
      meta_window_clamp := u32 (sum_clamp m.connection_list),
      meta_rcv_ssthresh := u32 (sum_ssthresh m.connection_list),
      meta_rcvbuf := u32 (sum_rcvbuf m.connection_list) }

/-- mptcp_update_sndbuf (net/ipv4/mptcp.c line 1725): the meta sndbuf
is the sum of the subflow sndbufs. -/
def mptcp_update_sndbuf (m : RMpcb) : RMpcb :=
  { m with meta_sndbuf := u32 (sum_sndbuf m.connection_list) }

/-- mptcp_add_sock (net/ipv4/mptcp.c line 590): a non-mpc subflow is a
BUG (`none`).  A zero path index becomes 1, the subflow is linked at
the head of the connection list and marked attached, the remote token
is propagated, cnt_subflows is incremented and the window-clamp
aggregates recomputed, the subflow's receive memory is added to the
meta socket, and an already-ESTABLISHED subflow bumps cnt_established,
recomputes the sndbuf aggregate and promotes a SYN_SENT/SYN_RECV meta
state to ESTABLISHED.  The drain of the subflow's receive queue
(lines 649-665) feeds segments through mptcp_get_dataseq_mapping and
mptcp_queue_skb and touches none of the registry fields modelled here;
it is omitted from this registry-level state. -/
def mptcp_add_sock (m : RMpcb) (tp : RSub) : Option RMpcb :=
  if !tp.mpc then none
  else
    let tp := if tp.path_index == 0 then { tp with path_index := 1 } else tp
    let tp := { tp with attached := true, rem_token := m.master_rem_token }
    let m := { m with
      connection_list := tp :: m.connection_list,
      cnt_subflows := m.cnt_subflows + 1 }
    let m := mptcp_update_window_clamp m
    let m := { m with meta_rmem_alloc := m.meta_rmem_alloc + tp.sk_rmem_alloc }
    if tp.sk_state == TCP_ESTABLISHED then
      let m := { m with cnt_established := m.cnt_established + 1 }
      let m := mptcp_update_sndbuf m
      if ((1 <<< m.meta_sk_state) &&& (TCPF_SYN_SENT ||| TCPF_SYN_RECV)) != 0
      then some { m with meta_sk_state := TCP_ESTABLISHED }
      else some m
    else some m

def remove_first (x : RSub) : List RSub → Option (List RSub)
  | [] => none
  | y :: ys => if y = x then some ys else (remove_first x ys).map (y :: ·)

/-- mptcp_del_sock (net/ipv4/mptcp.c line 688): a non-mpc or already
detached subflow is left alone; otherwise the subflow is spliced out of
the connection list and cnt_subflows decremented (pointer identity in C
is modelled as first structural match; not finding it is the
BUG_ON(!done), `none`).  No aggregate is recomputed.  The
sk_protocol != IPPROTO_TCP early return concerns non-TCP sockets
outside this model. -/
def mptcp_del_sock (m : RMpcb) (tp : RSub) : Option RMpcb :=
  if !tp.mpc then some m
  else if !tp.attached then some m
  else (remove_first tp m.connection_list).map (fun l =>
    { m with connection_list := l, cnt_subflows := m.cnt_subflows - 1 })

def ra : RSub :=
  { window_clamp := 100, rcv_ssthresh := 10, sk_rcvbuf := 1000,
    sk_sndbuf := 2000, sk_rmem_alloc := 0, sk_state := TCP_ESTABLISHED,
    path_index := 1, rem_token := 0, mpc := true, attached := true }

def rb : RSub :=
  { window_clamp := 50, rcv_ssthresh := 5, sk_rcvbuf := 500,
    sk_sndbuf := 700, sk_rmem_alloc := 0, sk_state := TCP_ESTABLISHED,
    path_index := 2, rem_token := 0, mpc := true, attached := true }

def rm0 : RMpcb :=
  { connection_list := [ra, rb], cnt_subflows := 2, cnt_established := 2,
    master_rem_token := 0, meta_mpc := true, meta_window_clamp := 150,
    meta_rcv_ssthresh := 15, meta_rcvbuf := 1500, meta_sndbuf := 2700,
    meta_rmem_alloc := 0, meta_sk_state := TCP_ESTABLISHED }

/-- Counterexample to C8 as stated.  An MCB with two subflows whose
aggregates all equal the sums; detaching one subflow via mptcp_del_sock
recomputes nothing, so afterwards none of the four aggregates equals
the sum over the remaining attached subflow. -/
theorem claim8_counterexample :
    rm0.meta_window_clamp = u32 (sum_clamp rm0.connection_list) ∧
    rm0.meta_rcv_ssthresh = u32 (sum_ssthresh rm0.connection_list) ∧
    rm0.meta_rcvbuf = u32 (sum_rcvbuf rm0.connection_list) ∧
    rm0.meta_sndbuf = u32 (sum_sndbuf rm0.connection_list) ∧
    mptcp_del_sock rm0 ra =
      some { rm0 with connection_list := [rb], cnt_subflows := 1 } ∧
    ({ rm0 with connection_list := [rb], cnt_subflows := 1 } :
        RMpcb).meta_window_clamp ≠ u32 (sum_clamp [rb]) ∧
    ({ rm0 with connection_list := [rb], cnt_subflows := 1 } :
        RMpcb).meta_rcv_ssthresh ≠ u32 (sum_ssthresh [rb]) ∧
    ({ rm0 with connection_list := [rb], cnt_subflows := 1 } :
        RMpcb).meta_rcvbuf ≠ u32 (sum_rcvbuf [rb]) ∧
    ({ rm0 with connection_list := [rb], cnt_subflows := 1 } :
        RMpcb).meta_sndbuf ≠ u32 (sum_sndbuf [rb]) := by decide

/-- C8 amended: after every attach the MCB's window_clamp,
rcv_ssthresh and sk_rcvbuf equal the sums over the attached subflows,
and sk_sndbuf does too when the attached subflow was already
ESTABLISHED (only then is the sndbuf aggregate recomputed); a detach
recomputes nothing and leaves all four aggregates at their previous
values. -/
theorem claim8_buffer_aggregation (m : RMpcb) (tp : RSub) :
    (∀ m', m.meta_mpc = true → mptcp_add_sock m tp = some m' →
      m'.meta_window_clamp = u32 (sum_clamp m'.connection_list) ∧
      m'.meta_rcv_ssthresh = u32 (sum_ssthresh m'.connection_list) ∧
      m'.meta_rcvbuf = u32 (sum_rcvbuf m'.connection_list) ∧
      (tp.sk_state = TCP_ESTABLISHED →
        m'.meta_sndbuf = u32 (sum_sndbuf m'.connection_list))) ∧
    (∀ m', mptcp_del_sock m tp = some m' →
      m'.meta_window_clamp = m.meta_window_clamp ∧
      m'.meta_rcv_ssthresh = m.meta_rcv_ssthresh ∧
      m'.meta_rcvbuf = m.meta_rcvbuf ∧
      m'.meta_sndbuf = m.meta_sndbuf) := by
  constructor
  · intro m' hmeta hadd
    unfold mptcp_add_sock at hadd
    by_cases hmpc : tp.mpc = true
    · simp only [hmpc, Bool.not_true, Bool.false_eq_true, if_false] at hadd
      simp only [mptcp_update_window_clamp, mptcp_update_sndbuf, hmeta,
        Bool.not_true, Bool.false_eq_true, if_false] at hadd
      by_cases hest : (tp.sk_state == TCP_ESTABLISHED) = true
      · by_cases hpi : (tp.path_index == 0) = true
        · simp only [hpi, hest, if_true] at hadd
          split at hadd
          · obtain rfl := Option.some.inj hadd
            exact ⟨rfl, rfl, rfl, fun _ => rfl⟩
          · obtain rfl := Option.some.inj hadd
            exact ⟨rfl, rfl, rfl, fun _ => rfl⟩
        · simp only [hpi, hest, Bool.false_eq_true, if_false, if_true] at hadd
          split at hadd
          · obtain rfl := Option.some.inj hadd
            exact ⟨rfl, rfl, rfl, fun _ => rfl⟩
          · obtain rfl := Option.some.inj hadd
            exact ⟨rfl, rfl, rfl, fun _ => rfl⟩
      · have hest' : ¬ tp.sk_state = TCP_ESTABLISHED := by simpa using hest
        by_cases hpi : (tp.path_index == 0) = true
        · simp only [hpi, hest, Bool.false_eq_true, if_false, if_true] at hadd
          obtain rfl := Option.some.inj hadd
          exact ⟨rfl, rfl, rfl, fun hs => absurd hs hest'⟩
        · simp only [hpi, hest, Bool.false_eq_true, if_false] at hadd
          obtain rfl := Option.some.inj hadd
          exact ⟨rfl, rfl, rfl, fun hs => absurd hs hest'⟩
    · simp [hmpc] at hadd
  · intro m' hdel
    unfold mptcp_del_sock at hdel
    by_cases h1 : tp.mpc = true
    · simp only [h1, Bool.not_true, Bool.false_eq_true, if_false] at hdel
      by_cases h2 : tp.attached = true
      · simp only [h2, Bool.not_true, Bool.false_eq_true, if_false,
          Option.map_eq_some'] at hdel
        obtain ⟨l, _, hm⟩ := hdel
        rw [← hm]
        exact ⟨rfl, rfl, rfl, rfl⟩
      · simp only [Bool.not_eq_true] at h2
        simp only [h1, h2, Bool.not_false, if_true, Option.some.injEq] at hdel
        rw [← hdel]
        exact ⟨rfl, rfl, rfl, rfl⟩
    · simp only [Bool.not_eq_true] at h1
      simp only [h1, Bool.not_false, if_true, Option.some.injEq] at hdel
      rw [← hdel]
      exact ⟨rfl, rfl, rfl, rfl⟩

def rm1 : RMpcb :=
  { connection_list := [rb], cnt_subflows := 1, cnt_established := 1,
    master_rem_token := 0, meta_mpc := true, meta_window_clamp := 50,
    meta_rcv_ssthresh := 5, meta_rcvbuf := 500, meta_sndbuf := 700,
    meta_rmem_alloc := 0, meta_sk_state := TCP_ESTABLISHED }

/-- Witness for amended C8: attaching a second, already-ESTABLISHED
subflow to a one-subflow MCB yields aggregates equal to the sums. -/
theorem claim8_buffer_aggregation_witness :
    rm1.meta_mpc = true ∧
    (rm0.meta_window_clamp = u32 (sum_clamp rm0.connection_list) ∧
     rm0.meta_rcv_ssthresh = u32 (sum_ssthresh rm0.connection_list) ∧
     rm0.meta_rcvbuf = u32 (sum_rcvbuf rm0.connection_list) ∧
     (ra.sk_state = TCP_ESTABLISHED →
       rm0.meta_sndbuf = u32 (sum_sndbuf rm0.connection_list))) :=
  ⟨rfl, (claim8_buffer_aggregation rm1 ra).1 rm0 rfl (by decide)⟩

/-! Write-queue bookkeeping (net/ipv4/mptcp.c lines 1287-1305). -/

/-- Subflow fields touched by mptcp_skb_entail: the subflow write
sequence, the write-memory counter (sk_wmem_queued plus the
sk_mem_charge effect on sk_forward_alloc) and the write queue. -/
structure ESub where
  write_seq : Nat
  sk_wmem_queued : Nat
  sk_forward_alloc : Int
  write_queue : List Skb
  deriving DecidableEq

/-- mptcp_skb_entail (net/ipv4/mptcp.c line 1287): set the segment's
subflow seq = end_seq = sub_seq = write_seq and clear its sacked
record, append it to the write queue, charge its truesize to the write
memory counters, then advance write_seq and end_seq by len + fin (the
queued segment is the same object, so it carries the final end_seq).
The segment's DSN fields are not touched. -/
def mptcp_skb_entail (tp : ESub) (skb : Skb) : ESub × Skb :=
  let fin : Nat := if skb.cb.flags &&& TCPHDR_FIN != 0 then 1 else 0
  let cb1 := { skb.cb with seq := tp.write_seq, end_seq := tp.write_seq,
                           sub_seq := tp.write_seq, sacked := 0 }
  let cb2 := { cb1 with end_seq := u32 (cb1.end_seq + skb.len + fin) }
  let skb2 := { skb with cb := cb2 }
  ({ tp with
     write_queue := tp.write_queue ++ [skb2],
     sk_wmem_queued := tp.sk_wmem_queued + skb.truesize,
     sk_forward_alloc := tp.sk_forward_alloc - skb.truesize,
     write_seq := u32 (tp.write_seq + skb.len + fin) }, skb2)

def etp : ESub :=
  { write_seq := 1000, sk_wmem_queued := 0, sk_forward_alloc := 4096,
    write_queue := [] }

def eskb : Skb :=
  { cb := { tcb_zero with data_seq := 77, end_data_seq := 177, sacked := 5 },
    len := 100, fin := false, dfin_opt := false, csum_bad := false,
    truesize := 356 }

/-- Counterexample to C9 as stated.  Entailing a 100-byte segment at
write_seq 1000 leaves seq = sub_seq = 1000 but end_seq = 1100: the
claimed postcondition seq = end_seq = sub_seq = write_seq fails,
because the code then adds len + fin to end_seq (and to write_seq). -/
theorem claim9_counterexample :
    (mptcp_skb_entail etp eskb).2.cb.seq = 1000 ∧
    (mptcp_skb_entail etp eskb).2.cb.sub_seq = 1000 ∧
    (mptcp_skb_entail etp eskb).2.cb.end_seq = 1100 ∧
    ¬ (mptcp_skb_entail etp eskb).2.cb.end_seq = etp.write_seq := by decide

/-- C9 amended: mptcp_skb_entail sets the segment's subflow
seq = sub_seq = (the entry value of) write_seq and
end_seq = write_seq + len + fin, clears its sacked record, appends it
to the subflow write queue, charges its truesize to sk_wmem_queued and
sk_forward_alloc, advances the subflow write_seq by len + fin, and
leaves the segment's DSN fields (data_seq, end_data_seq) unchanged. -/
theorem claim9_skb_entail_effect (tp : ESub) (skb : Skb) :
    (mptcp_skb_entail tp skb).2.cb.seq = tp.write_seq ∧
    (mptcp_skb_entail tp skb).2.cb.sub_seq = tp.write_seq ∧
    (mptcp_skb_entail tp skb).2.cb.end_seq =
      u32 (tp.write_seq + skb.len +
        (if skb.cb.flags &&& TCPHDR_FIN != 0 then 1 else 0)) ∧
    (mptcp_skb_entail tp skb).2.cb.sacked = 0 ∧
    (mptcp_skb_entail tp skb).2.cb.data_seq = skb.cb.data_seq ∧
    (mptcp_skb_entail tp skb).2.cb.end_data_seq = skb.cb.end_data_seq ∧
    (mptcp_skb_entail tp skb).1.sk_wmem_queued =
      tp.sk_wmem_queued + skb.truesize ∧
    (mptcp_skb_entail tp skb).1.sk_forward_alloc =
      tp.sk_forward_alloc - skb.truesize ∧
    (mptcp_skb_entail tp skb).1.write_queue =
      tp.write_queue ++ [(mptcp_skb_entail tp skb).2] ∧
    (mptcp_skb_entail tp skb).1.write_seq =
      u32 (tp.write_seq + skb.len +
        (if skb.cb.flags &&& TCPHDR_FIN != 0 then 1 else 0)) :=
  ⟨rfl, rfl, rfl, rfl, rfl, rfl, rfl, rfl, rfl, rfl⟩
